import Mathlib

/-!
Verification development for the cinestream transcoding pipeline.

Shallow embedding of the Go sources:

* `internal/platform/transcoding/ffmpeg.go` — quality profiles, encoder
  detection, master-playlist construction, `TranscodeToHLS` control flow;
* `internal/platform/queue/service.go` — `ConsumeTranscodingJob`;
* `cmd/worker/processor.go` — `processJob` and the `Start` control loop;
* `internal/platform/strorage/service.go` — `GetHLSURL`,
  `DeleteProcessedVideo` object paths.

Machine strings are Lean `String`; Go maps/records become Lean structures;
external effects (MinIO, ffmpeg, Redis) are abstracted into environment
records of boolean/functional outcomes, and the functions return the
values plus the observable effects the Go code performs.
-/

namespace Cinestream

/-- String helper: Go `strings.Split(s, sep)` for a single-character
separator, implemented on the character list. -/
def splitCharAux (c : Char) : List Char → List Char → List (List Char)
  | [], acc => [acc.reverse]
  | x :: xs, acc =>
    if x = c then acc.reverse :: splitCharAux c xs []
    else splitCharAux c xs (x :: acc)

/-- Go `strings.Split(s, sep)` with a one-character separator `c`. -/
def splitOnCharStr (c : Char) (s : String) : List String :=
  (splitCharAux c s.data []).map (fun l => ⟨l⟩)

/-- Go `strings.TrimSuffix(s, suffix)`: drop `suffix` when present. -/
def trimSuffix (s suffix : String) : String :=
  if suffix.data.isSuffixOf s.data then
    ⟨s.data.take (s.data.length - suffix.data.length)⟩
  else s

/-- Go `strings.Contains(s, sub)`: substring containment. -/
def containsSubstr (s sub : String) : Bool :=
  s.data.tails.any (fun t => sub.data.isPrefixOf t)

/-- Go `filepath.Base` restricted to the names this program passes to it
(nonempty, slash-free or simple `a/b` relative names): the last
`/`-separated component; `"."` for the empty string. -/
def filepathBase (p : String) : String :=
  if p = "" then "." else (splitOnCharStr '/' p).getLastD p

/-- Structure `QualityProfile` from `ffmpeg.go`. -/
structure QualityProfile where
  Name : String
  Resolution : String
  Bitrate : String
  MaxRate : String
  BufSize : String
deriving DecidableEq, Repr

/-- The four entries of the package-level `qualityProfiles` list. -/
def profile1080p : QualityProfile :=
  { Name := "1080p", Resolution := "1920x1080", Bitrate := "5000k",
    MaxRate := "5350k", BufSize := "7500k" }

def profile720p : QualityProfile :=
  { Name := "720p", Resolution := "1280x720", Bitrate := "2800k",
    MaxRate := "2996k", BufSize := "4200k" }

def profile480p : QualityProfile :=
  { Name := "480p", Resolution := "854x480", Bitrate := "1400k",
    MaxRate := "1498k", BufSize := "2100k" }

def profile360p : QualityProfile :=
  { Name := "360p", Resolution := "640x360", Bitrate := "800k",
    MaxRate := "856k", BufSize := "1200k" }

/-- The ordered, process-wide `qualityProfiles` configuration. -/
def qualityProfiles : List QualityProfile :=
  [profile1080p, profile720p, profile480p, profile360p]

/-- The inner matching loop of `createMasterPlaylist`: first configured
profile whose `Name` equals the quality name extracted from a playlist
filename. -/
def findProfile (qualityName : String) : Option QualityProfile :=
  qualityProfiles.find? (fun p => p.Name == qualityName)

/-- The bandwidth digits emitted for a matched profile:
`strings.TrimSuffix(profile.Bitrate, "k")` with `"000"` appended by the
`BANDWIDTH=%s000` format verb. -/
def emittedBandwidthStr (p : QualityProfile) : String :=
  trimSuffix p.Bitrate "k" ++ "000"

/-- The synthetic bandwidth of the defensive fallback branch:
`(len(variantPlaylists)-i)*1000000` for the variant at index `i` of `n`. -/
def syntheticBandwidth (n i : Nat) : Nat :=
  (n - i) * 1000000

/-- One iteration of the `createMasterPlaylist` loop: the lines written
for the variant playlist at index `i` of `n` total. A matched profile
with a well-formed `WxH` resolution yields the stream-info line plus the
playlist filename; a matched profile with a malformed resolution yields
nothing; an unmatched filename yields the fallback synthetic-bandwidth
line plus the playlist filename. -/
def streamInfLines (n i : Nat) (playlist : String) : List String :=
  let qualityName := trimSuffix (filepathBase playlist) ".m3u8"
  match findProfile qualityName with
  | some profile =>
    let parts := splitOnCharStr 'x' profile.Resolution
    if parts.length == 2 then
      ["#EXT-X-STREAM-INF:BANDWIDTH=" ++ emittedBandwidthStr profile ++
         ",RESOLUTION=" ++ profile.Resolution,
       playlist]
    else []
  | none =>
    ["#EXT-X-STREAM-INF:BANDWIDTH=" ++ toString (syntheticBandwidth n i),
     playlist]

/-- The full content of the master playlist built by
`createMasterPlaylist`, as the list of lines written to the builder. -/
def createMasterPlaylistLines (variantPlaylists : List String) : List String :=
  ["#EXTM3U", "#EXT-X-VERSION:3"] ++
    variantPlaylists.enum.flatMap
      (fun pr => streamInfLines variantPlaylists.length pr.1 pr.2)

/-- Recognises a stream-info line of the master playlist. -/
def isStreamInfLine (l : String) : Bool :=
  "#EXT-X-STREAM-INF:".data.isPrefixOf l.data

/-- The software-encoder preference list of `detectH264Encoder`. -/
def swEncoders : List String := ["libopenh264", "mpeg4"]

/-- Function `detectH264Encoder` from `ffmpeg.go`. The `ffmpeg -hide_banner
-encoders` probe is abstracted as its outcome: `none` when the command
fails, `some output` otherwise. The function skips every hardware
encoder unconditionally and scans the output for the software encoders
in order, falling back to `"mpeg4"`. -/
def detectH264Encoder (probeOutput : Option String) : String :=
  match probeOutput with
  | none => "mpeg4"
  | some outputStr =>
    match swEncoders.find? (fun encoder => containsSubstr outputStr encoder) with
    | some encoder => encoder
    | none => "mpeg4"

/-- Zero-padded 3-digit decimal of the `%03d` verb in the segment
pattern, for indexes below 1000. -/
def pad3 (n : Nat) : String :=
  if n < 10 then "00" ++ toString n
  else if n < 100 then "0" ++ toString n
  else toString n

/-- The relative file names `transcodeQuality` leaves in the output
directory on success: `{name}.m3u8` plus the `{name}_{NNN}.ts` segments
(the segment count is environment data). -/
def renditionFiles (p : QualityProfile) (segCount : Nat) : List String :=
  (p.Name ++ ".m3u8") ::
    (List.range segCount).map (fun i => p.Name ++ "_" ++ pad3 i ++ ".ts")

/-- Outcomes of the external effects `TranscodeToHLS` performs, in
program order: the two `os.MkdirAll` calls, the MinIO download, each
profile's ffmpeg invocation (with the number of segments a successful
invocation produces), the `os.WriteFile` of the master playlist, and the
upload walk. `probeOutput` is the `ffmpeg -encoders` outcome seen by
every `detectH264Encoder` call in the process. -/
structure TranscodeEnv where
  mkdirWorkOk : Bool
  downloadOk : Bool
  mkdirOutputOk : Bool
  encodeOk : QualityProfile → Bool
  segCount : QualityProfile → Nat
  writeMasterOk : Bool
  uploadOk : Bool
  probeOutput : Option String

/-- A path equal to `dir` or strictly below it. -/
def isPathUnder (dir p : String) : Bool :=
  dir == p || (dir ++ "/").data.isPrefixOf p.data

/-- Go `os.RemoveAll(dir)` on a filesystem modelled as a list of paths. -/
def removeAllFS (dir : String) (fs : List String) : List String :=
  fs.filter (fun p => !isPathUnder dir p)

/-- The per-job working directory `filepath.Join(s.tempDir, "movie-%d")`
with `tempDir = "/tmp/transcoding"`. -/
def workDirOf (movieID : Int) : String :=
  "/tmp/transcoding/movie-" ++ toString movieID

/-- The MinIO base path `fmt.Sprintf("movie-%d", movieID)` used by
`uploadHLSFiles`. -/
def hlsBasePath (movieID : Int) : String :=
  "movie-" ++ toString movieID

/-- What `TranscodeToHLS` returns and the effects it leaves behind. -/
structure TranscodeResult where
  ret : Except String String
  masterLines : Option (List String)
  uploadedObjects : List String
  fsAfter : List String
  probeCount : Nat
deriving Repr

/-- Function `TranscodeToHLS` from `ffmpeg.go`, over an effect environment and a
filesystem (a list of paths). Mirrors the Go control flow: create the
working directory (with `defer os.RemoveAll(workDir)` applied on every
subsequent return), download the raw object, create the output
directory, attempt every configured profile in order skipping failures
(each attempt calls `detectH264Encoder`, hence `probeCount`), fail when
no rendition succeeded, write the master playlist, upload every output
file under `movie-{id}/`, and return that base path's `master.m3u8`. -/
def TranscodeToHLS (env : TranscodeEnv) (movieID : Int) (fs : List String) :
    TranscodeResult :=
  let workDir := workDirOf movieID
  if !env.mkdirWorkOk then
    { ret := .error "failed to create work directory",
      masterLines := none, uploadedObjects := [], fsAfter := fs,
      probeCount := 0 }
  else
    let fs1 := workDir :: fs
    if !env.downloadOk then
      { ret := .error "failed to download raw video",
        masterLines := none, uploadedObjects := [],
        fsAfter := removeAllFS workDir fs1, probeCount := 0 }
    else
      let fs2 := (workDir ++ "/input.mp4") :: fs1
      let outputDir := workDir ++ "/output"
      if !env.mkdirOutputOk then
        { ret := .error "failed to create output directory",
          masterLines := none, uploadedObjects := [],
          fsAfter := removeAllFS workDir fs2, probeCount := 0 }
      else
        let fs3 := outputDir :: fs2
        let succeeded := qualityProfiles.filter (fun p => env.encodeOk p)
        let variantPlaylists := succeeded.map (fun p => p.Name ++ ".m3u8")
        let outputFiles :=
          succeeded.flatMap (fun p => renditionFiles p (env.segCount p))
        let fs4 := fs3 ++ outputFiles.map (fun f => outputDir ++ "/" ++ f)
        if variantPlaylists.isEmpty then
          { ret := .error "failed to transcode any quality level",
            masterLines := none, uploadedObjects := [],
            fsAfter := removeAllFS workDir fs4,
            probeCount := qualityProfiles.length }
        else if !env.writeMasterOk then
          { ret := .error "failed to create master playlist",
            masterLines := none, uploadedObjects := [],
            fsAfter := removeAllFS workDir fs4,
            probeCount := qualityProfiles.length }
        else
          let fs5 := (outputDir ++ "/master.m3u8") :: fs4
          if !env.uploadOk then
            { ret := .error "failed to upload HLS files",
              masterLines := some (createMasterPlaylistLines variantPlaylists),
              uploadedObjects := [],
              fsAfter := removeAllFS workDir fs5,
              probeCount := qualityProfiles.length }
          else
            { ret := .ok (hlsBasePath movieID ++ "/master.m3u8"),
              masterLines := some (createMasterPlaylistLines variantPlaylists),
              uploadedObjects :=
                (outputFiles ++ ["master.m3u8"]).map
                  (fun f => hlsBasePath movieID ++ "/" ++ f),
              fsAfter := removeAllFS workDir fs5,
              probeCount := qualityProfiles.length }

/-- Structure `TranscodingJob` from `queue/service.go`. -/
structure TranscodingJob where
  MovieID : Int
  RawFilePath : String
deriving DecidableEq, Repr

/-- Outcome of the `BRPop` call inside `ConsumeTranscodingJob`:
`timeout` is the `redis.Nil` error, `ok` a delivered `[key, value]`
reply, `err` any other transport error. -/
inductive BRPopResult where
  | timeout
  | ok (result : List String)
  | err (e : String)
deriving DecidableEq, Repr

/-- Function `ConsumeTranscodingJob` from `queue/service.go`. `ctxErr` is
`ctx.Err()` at the post-`BRPop` check (`none` when the context is
alive); `unmarshal` abstracts `json.Unmarshal` into `TranscodingJob`.
Returns `.ok none` for "no job available". -/
def ConsumeTranscodingJob (unmarshal : String → Option TranscodingJob)
    (brpop : BRPopResult) (ctxErr : Option String) :
    Except String (Option TranscodingJob) :=
  match brpop with
  | .timeout => .ok none
  | .err e =>
    match ctxErr with
    | some ce => .error ce
    | none => .error ("failed to pop job from queue: " ++ e)
  | .ok result =>
    if result.length < 2 then .error "invalid queue response"
    else
      match unmarshal (result.getD 1 "") with
      | some job => .ok (some job)
      | none => .error "failed to unmarshal job"

/-- The `movie_videos` fields the pipeline reads and writes. Go `nil`
string columns are the empty string. -/
structure MovieRecord where
  uploadStatus : String
  hlsPlaylistURL : String
  errorMessage : String
deriving DecidableEq, Repr

/-- Outcomes of the external calls `processJob` makes: the three
`UpdateMovieVideo` calls and the orchestrator invocation (abstracted as
its returned value). -/
structure ProcessEnv where
  updProcessingOk : Bool
  updFinalOk : Bool
  transcodeRet : Except String String

/-- Function `processJob` from `cmd/worker/processor.go`, as a transformer of the
job's `MovieRecord` plus the error it returns. A failed
`UpdateMovieVideo` leaves the record unchanged; the FAILED update stores
`err.Error()`; the READY update stores the playlist URL and clears the
error message. -/
def processJob (env : ProcessEnv) (rec : MovieRecord) :
    MovieRecord × Option String :=
  if !env.updProcessingOk then
    (rec, some "failed to update status to PROCESSING")
  else
    let rec1 := { rec with uploadStatus := "PROCESSING" }
    match env.transcodeRet with
    | .error e =>
      if env.updFinalOk then
        ({ rec1 with uploadStatus := "FAILED", errorMessage := e },
         some ("transcoding failed: " ++ e))
      else
        (rec1, some ("transcoding failed: " ++ e))
    | .ok hlsURL =>
      if env.updFinalOk then
        ({ rec1 with uploadStatus := "READY", hlsPlaylistURL := hlsURL,
                     errorMessage := "" },
         none)
      else
        (rec1, some "failed to update status to READY")

/-- One iteration's worth of input to the `Start` loop: either the
cancellation signal fires (`ctx.Done`, or `ConsumeTranscodingJob`
returning with a cancelled context), or consume errors with the context
alive, or the no-job timeout result, or a delivered job together with
the outcomes of processing it. -/
inductive QueueEvent where
  | cancelled (ctxErr : String)
  | consumeErr (e : String)
  | noJob
  | job (j : TranscodingJob) (env : ProcessEnv)

/-- The worker state the loop touches: the per-movie records and the
log. -/
structure LoopState where
  records : Int → MovieRecord
  logLines : List String

/-- The state change of one delivered job: run `processJob` on the
movie's record, and log the error if it returned one. -/
def applyJobStep (s : LoopState) (j : TranscodingJob) (env : ProcessEnv) :
    LoopState :=
  let out := processJob env (s.records j.MovieID)
  { records := fun id => if id = j.MovieID then out.1 else s.records id,
    logLines :=
      match out.2 with
      | some e => s.logLines ++ ["Error processing job: " ++ e]
      | none => s.logLines }

/-- Function `Start` from `cmd/worker/processor.go` over a finite trace of queue
events. The second component is `some ctxErr` when the loop returned
(which the Go loop does only for a cancelled context) and `none` when
the trace was exhausted with the loop still running. Consume errors and
job-processing errors are logged and the loop continues. -/
def runLoop (s : LoopState) : List QueueEvent → LoopState × Option String
  | [] => (s, none)
  | .cancelled ctxErr :: _ => (s, some ctxErr)
  | .consumeErr e :: rest =>
    runLoop { s with logLines := s.logLines ++ ["Error consuming job: " ++ e] }
      rest
  | .noJob :: rest => runLoop s rest
  | .job j env :: rest => runLoop (applyJobStep s j env) rest

/-- Whether a trace contains the cancellation signal. -/
def hasCancelEvent : List QueueEvent → Bool
  | [] => false
  | .cancelled _ :: _ => true
  | _ :: rest => hasCancelEvent rest

/-- The object name `GetHLSURL` (storage service) checks for
existence: `fmt.Sprintf("processed-videos/%d/master.m3u8", movieID)`. -/
def getHLSObjectName (movieID : Int) : String :=
  "processed-videos/" ++ toString movieID ++ "/master.m3u8"

/-- The object prefix `DeleteProcessedVideo` removes:
`fmt.Sprintf("processed-videos/%d/", movieID)`. -/
def deleteProcessedScope (movieID : Int) : String :=
  "processed-videos/" ++ toString movieID ++ "/"

/-- The state-machine transitions the pipeline itself performs on a
movie's record: creation as PENDING with empty URL and error (movie
upload, `usecase.go`), PENDING → PROCESSING on dequeue, PROCESSING →
READY with the orchestrator's returned playlist URL (clearing the error
message), PROCESSING → FAILED with the orchestrator's error message
(`processor.go`). The READY/FAILED payloads range over what
`TranscodeToHLS` can actually return. -/
inductive ReachableRecord : MovieRecord → Prop where
  | init :
      ReachableRecord
        { uploadStatus := "PENDING", hlsPlaylistURL := "", errorMessage := "" }
  | toProcessing (r : MovieRecord) :
      ReachableRecord r → r.uploadStatus = "PENDING" →
      ReachableRecord { r with uploadStatus := "PROCESSING" }
  | toReady (r : MovieRecord) (url : String)
      (env : TranscodeEnv) (movieID : Int) (fs : List String) :
      ReachableRecord r → r.uploadStatus = "PROCESSING" →
      (TranscodeToHLS env movieID fs).ret = .ok url →
      ReachableRecord
        { r with uploadStatus := "READY", hlsPlaylistURL := url,
                 errorMessage := "" }
  | toFailed (r : MovieRecord) (e : String)
      (env : TranscodeEnv) (movieID : Int) (fs : List String) :
      ReachableRecord r → r.uploadStatus = "PROCESSING" →
      (TranscodeToHLS env movieID fs).ret = .error e →
      ReachableRecord { r with uploadStatus := "FAILED", errorMessage := e }

/-- A concrete effect environment in which every external call
succeeds. -/
def envAllOk : TranscodeEnv :=
  { mkdirWorkOk := true, downloadOk := true, mkdirOutputOk := true,
    encodeOk := fun _ => true, segCount := fun _ => 2,
    writeMasterOk := true, uploadOk := true,
    probeOutput := some " V..... libopenh264  V..... mpeg4 " }

/-- A concrete effect environment in which every profile's encode step
fails but all other external calls succeed. -/
def envAllFail : TranscodeEnv :=
  { envAllOk with encodeOk := fun _ => false }

/-- Decimal reading of a string of digits: `some` of its base-10 value
when the string is nonempty and all digits, else `none`. Used to state
what the emitted bandwidth digits denote. -/
def decimalValue? (s : String) : Option Nat :=
  if s.data ≠ [] ∧ ∀ c ∈ s.data, c.isDigit then
    some (s.data.foldl (fun acc c => acc * 10 + (c.toNat - 48)) 0)
  else none

/-- The stream-info line the master playlist carries for a matched
profile. -/
def expectedStreamInfLine (p : QualityProfile) : String :=
  "#EXT-X-STREAM-INF:BANDWIDTH=" ++ emittedBandwidthStr p ++
    ",RESOLUTION=" ++ p.Resolution

/-- The two lines the master playlist carries per successful rendition. -/
def expectedEntry (p : QualityProfile) : List String :=
  [expectedStreamInfLine p, p.Name ++ ".m3u8"]

/-- On the playlist names produced by successful `transcodeQuality`
calls, `createMasterPlaylistLines` emits, after the header, exactly one
stream-info entry per selected profile, in the profile-list order. -/
lemma createMaster_on_selected (sel : QualityProfile → Bool) :
    createMasterPlaylistLines
        ((qualityProfiles.filter sel).map (fun p => p.Name ++ ".m3u8")) =
      ["#EXTM3U", "#EXT-X-VERSION:3"] ++
        (qualityProfiles.filter sel).flatMap expectedEntry := by
  cases h1 : sel profile1080p <;> cases h2 : sel profile720p <;>
    cases h3 : sel profile480p <;> cases h4 : sel profile360p <;>
    simp only [qualityProfiles, List.filter_cons, List.filter_nil,
      h1, h2, h3, h4, if_true, if_false] <;> decide

/-- The stream-info line count of the playlists in
`createMaster_on_selected` equals the number of selected profiles. -/
lemma createMaster_count_selected (sel : QualityProfile → Bool) :
    ((createMasterPlaylistLines
        ((qualityProfiles.filter sel).map (fun p => p.Name ++ ".m3u8"))).filter
      (fun l => isStreamInfLine l)).length =
      (qualityProfiles.filter sel).length := by
  cases h1 : sel profile1080p <;> cases h2 : sel profile720p <;>
    cases h3 : sel profile480p <;> cases h4 : sel profile360p <;>
    simp only [qualityProfiles, List.filter_cons, List.filter_nil,
      h1, h2, h3, h4, if_true, if_false] <;> decide

/-- Any string whose first character is known is not the empty string. -/
lemma ne_empty_of_head (s : String) (c : Char)
    (h : s.data.head? = some c) : s ≠ "" := by
  intro he
  rw [he] at h
  exact absurd h (by simp)

/-- Two strings with distinct known first characters differ. -/
lemma ne_of_head_m_p (s t : String) (hs : s.data.head? = some 'm')
    (ht : t.data.head? = some 'p') : s ≠ t := by
  intro h
  rw [h] at hs
  rw [hs] at ht
  exact absurd ht (by decide)

/-- Every `.ok` return value of `TranscodeToHLS` is the movie's
`movie-{id}/master.m3u8` path. -/
lemma transcode_ret_ok_shape (env : TranscodeEnv) (movieID : Int)
    (fs : List String) (r : String)
    (hr : (TranscodeToHLS env movieID fs).ret = .ok r) :
    r = hlsBasePath movieID ++ "/master.m3u8" := by
  simp only [TranscodeToHLS] at hr
  repeat' split at hr
  all_goals simp_all

/-- Every object name `TranscodeToHLS` uploads sits under the
`movie-{id}/` base path. -/
lemma transcode_uploads_shape (env : TranscodeEnv) (movieID : Int)
    (fs : List String) (u : String)
    (hu : u ∈ (TranscodeToHLS env movieID fs).uploadedObjects) :
    ∃ f, u = hlsBasePath movieID ++ "/" ++ f := by
  simp only [TranscodeToHLS] at hu
  repeat' split at hu
  all_goals simp only [List.mem_map, List.not_mem_nil] at hu
  obtain ⟨f, -, rfl⟩ := hu
  exact ⟨f, rfl⟩

/-- Every `.error` message of `TranscodeToHLS` is non-empty. -/
lemma transcode_error_nonempty (env : TranscodeEnv) (movieID : Int)
    (fs : List String) (e : String)
    (h : (TranscodeToHLS env movieID fs).ret = .error e) : e ≠ "" := by
  simp only [TranscodeToHLS] at h
  repeat' split at h
  all_goals simp only [Except.error.injEq] at h
  all_goals first
    | exact absurd h (by simp)
    | (subst h; decide)

/-- Nothing surviving `removeAllFS dir` lies at or under `dir`. -/
lemma mem_removeAllFS (d : String) (l : List String) (q : String)
    (h : q ∈ removeAllFS d l) : isPathUnder d q = false := by
  unfold removeAllFS at h
  simp only [List.mem_filter, Bool.not_eq_true'] at h
  exact h.2

/-- The filesystem left by `TranscodeToHLS` is either untouched (the
initial `MkdirAll` failed) or the result of the deferred
`os.RemoveAll(workDir)`. -/
lemma fsAfter_shape (env : TranscodeEnv) (movieID : Int)
    (fs : List String) :
    (env.mkdirWorkOk = false ∧ (TranscodeToHLS env movieID fs).fsAfter = fs)
    ∨ ∃ l, (TranscodeToHLS env movieID fs).fsAfter =
        removeAllFS (workDirOf movieID) l := by
  cases hmk : env.mkdirWorkOk with
  | false => left; exact ⟨rfl, by simp only [TranscodeToHLS, hmk]; rfl⟩
  | true =>
    right
    simp only [TranscodeToHLS, hmk, Bool.not_true, Bool.false_eq_true,
      if_false]
    repeat' split
    all_goals exact ⟨_, rfl⟩

/-- With the directory creation, download and master write succeeding
and at least one rendition succeeding, `TranscodeToHLS` produces the
master playlist for the selected profiles' playlist names. -/
lemma transcode_masterLines (env : TranscodeEnv) (movieID : Int)
    (fs : List String)
    (hmk : env.mkdirWorkOk = true) (hdl : env.downloadOk = true)
    (hout : env.mkdirOutputOk = true) (hwr : env.writeMasterOk = true)
    (hne : qualityProfiles.filter (fun p => env.encodeOk p) ≠ []) :
    (TranscodeToHLS env movieID fs).masterLines =
      some (createMasterPlaylistLines
        ((qualityProfiles.filter (fun p => env.encodeOk p)).map
          (fun p => p.Name ++ ".m3u8"))) := by
  have hie : ((qualityProfiles.filter (fun p => env.encodeOk p)).map
      (fun p => p.Name ++ ".m3u8")).isEmpty = false := by
    cases hc : ((qualityProfiles.filter (fun p => env.encodeOk p)).map
        (fun p => p.Name ++ ".m3u8")).isEmpty with
    | false => rfl
    | true =>
      exfalso
      apply hne
      have := List.isEmpty_iff.mp hc
      simpa using this
  unfold TranscodeToHLS
  cases hu : env.uploadOk <;> simp [hmk, hdl, hout, hwr, hu, hie]

end Cinestream

namespace Cinestream

/-- C3: for every configured quality profile, the BANDWIDTH digits
emitted in its stream-info line parse to exactly the profile's
configured kbit bitrate multiplied by 1000. -/
theorem bandwidth_is_kbit_times_1000 (p : QualityProfile)
    (hp : p ∈ qualityProfiles) :
    decimalValue? (trimSuffix p.Bitrate "k") ≠ none ∧
    decimalValue? (emittedBandwidthStr p) =
      (decimalValue? (trimSuffix p.Bitrate "k")).map (fun k => k * 1000) := by
  fin_cases hp <;> exact ⟨by decide, by decide⟩

/-- Witness for C3: the 1080p profile's `5000k` bitrate is emitted as
`BANDWIDTH=5000000`. -/
theorem bandwidth_is_kbit_times_1000_witness :
    decimalValue? (trimSuffix profile1080p.Bitrate "k") ≠ none ∧
    decimalValue? (emittedBandwidthStr profile1080p) =
      (decimalValue? (trimSuffix profile1080p.Bitrate "k")).map
        (fun k => k * 1000) :=
  bandwidth_is_kbit_times_1000 profile1080p (by decide)

/-- C9: a variant playlist at 0-based position `i` of `n` whose filename
matches no configured profile receives the fallback stream-info line
with synthetic bandwidth `(n - i) * 1000000`, and those synthetic values
are strictly descending in emission position. -/
theorem fallback_synthetic_bandwidth (vs : List String) (i : Nat)
    (pl : String) (_hv : vs[i]? = some pl)
    (hnm : findProfile (trimSuffix (filepathBase pl) ".m3u8") = none) :
    streamInfLines vs.length i pl =
      ["#EXT-X-STREAM-INF:BANDWIDTH=" ++
         toString (syntheticBandwidth vs.length i), pl]
    ∧ createMasterPlaylistLines vs =
        ["#EXTM3U", "#EXT-X-VERSION:3"] ++
          vs.enum.flatMap (fun pr => streamInfLines vs.length pr.1 pr.2)
    ∧ ∀ j, i < j → j < vs.length →
        syntheticBandwidth vs.length j < syntheticBandwidth vs.length i := by
  refine ⟨?_, rfl, ?_⟩
  · simp only [streamInfLines, hnm]
  · intro j hij hj
    have hi : i < vs.length := lt_of_le_of_lt (Nat.le_of_lt hij) hj
    simp only [syntheticBandwidth]
    omega

/-- C5: `ConsumeTranscodingJob` returns the "no job" result (`.ok none`,
a nil job with no error) when the bounded wait times out; it returns the
context's cancellation error when the surrounding context is cancelled;
and the processor loop treats a nil job by continuing with no side
effects. -/
theorem consume_no_job_and_cancellation (um : String → Option TranscodingJob)
    (brpop : BRPopResult) (ctxErr : Option String) :
    (brpop = .timeout → ConsumeTranscodingJob um brpop ctxErr = .ok none)
    ∧ (∀ e ce, brpop = .err e → ctxErr = some ce →
        ConsumeTranscodingJob um brpop ctxErr = .error ce)
    ∧ (∀ s rest, runLoop s (.noJob :: rest) = runLoop s rest) := by
  refine ⟨?_, ?_, ?_⟩
  · rintro rfl; rfl
  · rintro e ce rfl rfl; rfl
  · intro s rest; rfl

theorem consume_no_job_and_cancellation_witness :
    ConsumeTranscodingJob (fun _ => none) .timeout none = .ok none
    ∧ ConsumeTranscodingJob (fun _ => none) (.err "EOF")
        (some "context canceled") = .error "context canceled" :=
  ⟨(consume_no_job_and_cancellation (fun _ => none) .timeout none).1 rfl,
   (consume_no_job_and_cancellation (fun _ => none) (.err "EOF")
       (some "context canceled")).2.1 "EOF" "context canceled" rfl rfl⟩

/-- C8: the processor control loop returns only when the cancellation
signal fires: over any finite event trace, the loop has returned iff the
trace contains the cancellation event, and both consume errors and
job-processing errors make the loop log and proceed to the next
iteration. -/
theorem loop_returns_only_on_cancellation (s : LoopState)
    (events : List QueueEvent) :
    ((runLoop s events).2 ≠ none ↔ hasCancelEvent events = true)
    ∧ (∀ j env rest,
        runLoop s (QueueEvent.job j env :: rest) =
          runLoop (applyJobStep s j env) rest)
    ∧ (∀ e rest,
        runLoop s (QueueEvent.consumeErr e :: rest) =
          runLoop
            { s with logLines := s.logLines ++ ["Error consuming job: " ++ e] }
            rest) := by
  refine ⟨?_, fun _ _ _ => rfl, fun _ _ => rfl⟩
  induction events generalizing s with
  | nil => simp [runLoop, hasCancelEvent]
  | cons ev rest ih =>
    cases ev with
    | cancelled ctxErr => simp [runLoop, hasCancelEvent]
    | consumeErr e => simpa [runLoop, hasCancelEvent] using ih _
    | noJob => simpa [runLoop, hasCancelEvent] using ih _
    | job j env => simpa [runLoop, hasCancelEvent] using ih _

/-- Witness for C8: a trace consisting of one cancellation event makes
the loop return, per the equivalence. -/
theorem loop_returns_only_on_cancellation_witness :
    (runLoop { records := fun _ => ⟨"PENDING", "", ""⟩, logLines := [] }
        [QueueEvent.cancelled "context canceled"]).2 ≠ none :=
  (loop_returns_only_on_cancellation
    { records := fun _ => ⟨"PENDING", "", ""⟩, logLines := [] }
    [QueueEvent.cancelled "context canceled"]).1.mpr rfl

/-- Witness for C9: in `["1080p.m3u8", "weird.m3u8"]` the unmatched
second variant gets synthetic bandwidth `(2 - 1) * 1000000`. -/
theorem fallback_synthetic_bandwidth_witness :
    streamInfLines 2 1 "weird.m3u8" =
      ["#EXT-X-STREAM-INF:BANDWIDTH=" ++ toString (syntheticBandwidth 2 1),
       "weird.m3u8"]
    ∧ createMasterPlaylistLines ["1080p.m3u8", "weird.m3u8"] =
        ["#EXTM3U", "#EXT-X-VERSION:3"] ++
          (["1080p.m3u8", "weird.m3u8"].enum.flatMap
            (fun pr => streamInfLines 2 pr.1 pr.2))
    ∧ ∀ j, 1 < j → j < 2 → syntheticBandwidth 2 j < syntheticBandwidth 2 1 :=
  fallback_synthetic_bandwidth ["1080p.m3u8", "weird.m3u8"] 1 "weird.m3u8"
    (by decide) (by decide)

/-- C1: when the working directories, the download and the master write
succeed and a non-empty subset of the configured profiles encodes
successfully, the master playlist produced by `TranscodeToHLS` is the
`#EXTM3U` header and version tag followed by exactly one
`#EXT-X-STREAM-INF` entry (carrying BANDWIDTH and RESOLUTION, then the
rendition's relative playlist filename) per successful rendition, in
configured-profile order. -/
theorem master_playlist_structure (env : TranscodeEnv) (movieID : Int)
    (fs : List String)
    (hmk : env.mkdirWorkOk = true) (hdl : env.downloadOk = true)
    (hout : env.mkdirOutputOk = true) (hwr : env.writeMasterOk = true)
    (hne : qualityProfiles.filter (fun p => env.encodeOk p) ≠ []) :
    (TranscodeToHLS env movieID fs).masterLines =
      some (["#EXTM3U", "#EXT-X-VERSION:3"] ++
        (qualityProfiles.filter (fun p => env.encodeOk p)).flatMap
          expectedEntry)
    ∧ ∀ lines, (TranscodeToHLS env movieID fs).masterLines = some lines →
        (lines.filter (fun l => isStreamInfLine l)).length =
          (qualityProfiles.filter (fun p => env.encodeOk p)).length
        ∧ lines.take 2 = ["#EXTM3U", "#EXT-X-VERSION:3"] := by
  have hml := transcode_masterLines env movieID fs hmk hdl hout hwr hne
  rw [createMaster_on_selected] at hml
  refine ⟨hml, ?_⟩
  intro lines hl
  rw [hml, Option.some.injEq] at hl
  subst hl
  constructor
  · rw [← createMaster_on_selected]
    exact createMaster_count_selected _
  · rfl

/-- Witness for C1: with every external call succeeding all four
profiles succeed and the master playlist lists all four entries in
configured order. -/
theorem master_playlist_structure_witness :
    (TranscodeToHLS envAllOk 7 []).masterLines =
      some (["#EXTM3U", "#EXT-X-VERSION:3"] ++
        (qualityProfiles.filter (fun p => envAllOk.encodeOk p)).flatMap
          expectedEntry) :=
  (master_playlist_structure envAllOk 7 [] rfl rfl rfl rfl (by decide)).1

/-- C2: when every configured profile's encode step fails (and the
stages before encoding succeeded), `TranscodeToHLS` returns the
no-rendition error without producing a master playlist or uploading
anything, and `processJob` fed that outcome (with the record update
succeeding) moves the record to FAILED with a non-empty error
message. -/
theorem all_renditions_failed (env : TranscodeEnv) (movieID : Int)
    (fs : List String) (penv : ProcessEnv) (rec : MovieRecord)
    (hmk : env.mkdirWorkOk = true) (hdl : env.downloadOk = true)
    (hout : env.mkdirOutputOk = true)
    (hall : ∀ p ∈ qualityProfiles, env.encodeOk p = false)
    (hpe : penv.transcodeRet = (TranscodeToHLS env movieID fs).ret)
    (hupd1 : penv.updProcessingOk = true) (hupd2 : penv.updFinalOk = true) :
    (TranscodeToHLS env movieID fs).ret =
      .error "failed to transcode any quality level"
    ∧ (TranscodeToHLS env movieID fs).masterLines = none
    ∧ (TranscodeToHLS env movieID fs).uploadedObjects = []
    ∧ (processJob penv rec).1.uploadStatus = "FAILED"
    ∧ (processJob penv rec).1.errorMessage ≠ "" := by
  have hfilter : qualityProfiles.filter (fun p => env.encodeOk p) = [] := by
    rw [List.filter_eq_nil_iff]
    intro p hp
    simp [hall p hp]
  have hshape :
      (TranscodeToHLS env movieID fs).ret =
        .error "failed to transcode any quality level"
      ∧ (TranscodeToHLS env movieID fs).masterLines = none
      ∧ (TranscodeToHLS env movieID fs).uploadedObjects = [] := by
    simp only [TranscodeToHLS, hmk, hdl, hout, hfilter]
    simp
  have hret : penv.transcodeRet =
      .error "failed to transcode any quality level" := by
    rw [hpe]; exact hshape.1
  refine ⟨hshape.1, hshape.2.1, hshape.2.2, ?_, ?_⟩
  all_goals simp [processJob, hupd1, hupd2, hret]

/-- Witness for C2: a run in which all four profiles fail ends with the
no-rendition error, no artifacts, and a FAILED record carrying a
non-empty message. -/
theorem all_renditions_failed_witness :
    (TranscodeToHLS envAllFail 7 []).ret =
      .error "failed to transcode any quality level"
    ∧ (TranscodeToHLS envAllFail 7 []).masterLines = none
    ∧ (TranscodeToHLS envAllFail 7 []).uploadedObjects = []
    ∧ (processJob
        { updProcessingOk := true, updFinalOk := true,
          transcodeRet := (TranscodeToHLS envAllFail 7 []).ret }
        { uploadStatus := "PENDING", hlsPlaylistURL := "",
          errorMessage := "" }).1.uploadStatus = "FAILED"
    ∧ (processJob
        { updProcessingOk := true, updFinalOk := true,
          transcodeRet := (TranscodeToHLS envAllFail 7 []).ret }
        { uploadStatus := "PENDING", hlsPlaylistURL := "",
          errorMessage := "" }).1.errorMessage ≠ "" :=
  all_renditions_failed envAllFail 7 []
    { updProcessingOk := true, updFinalOk := true,
      transcodeRet := (TranscodeToHLS envAllFail 7 []).ret }
    { uploadStatus := "PENDING", hlsPlaylistURL := "", errorMessage := "" }
    rfl rfl rfl (by decide) rfl rfl rfl

/-- C4 counterexample: with hardware encoders (`h264_nvenc`,
`h264_vaapi`) present in the probe output, `detectH264Encoder` still
selects the software encoder `libopenh264`, and a job probes once per
attempted profile (4 times), not once per process. -/
theorem encoder_priority_counterexample :
    detectH264Encoder
        (some " V..... h264_nvenc  V..... h264_vaapi  V..... libopenh264 ") =
      "libopenh264"
    ∧ ("libopenh264" : String) ≠ "h264_nvenc"
    ∧ ("libopenh264" : String) ≠ "h264_vaapi"
    ∧ (TranscodeToHLS envAllOk 7 []).probeCount = 4
    ∧ (4 : Nat) ≠ 1 := by
  refine ⟨by decide, by decide, by decide, ?_, by decide⟩
  rfl

/-- C4 amended: `detectH264Encoder` never selects a hardware backend —
it deterministically returns the first of the software encoders
`libopenh264`, `mpeg4` contained in the probe output, and `mpeg4` when
the probe fails or neither matches — and every `TranscodeToHLS` run
that reaches the encode loop probes once per configured profile (no
per-process caching, no configuration override). -/
theorem encoder_selection_software_only (probe : Option String)
    (outputStr : String) (env : TranscodeEnv) (movieID : Int)
    (fs : List String)
    (hmk : env.mkdirWorkOk = true) (hdl : env.downloadOk = true)
    (hout : env.mkdirOutputOk = true) :
    detectH264Encoder probe ∈ swEncoders
    ∧ detectH264Encoder none = "mpeg4"
    ∧ (containsSubstr outputStr "libopenh264" = true →
        detectH264Encoder (some outputStr) = "libopenh264")
    ∧ (containsSubstr outputStr "libopenh264" = false →
        detectH264Encoder (some outputStr) = "mpeg4")
    ∧ (TranscodeToHLS env movieID fs).probeCount = qualityProfiles.length := by
  refine ⟨?_, rfl, ?_, ?_, ?_⟩
  · cases probe with
    | none => decide
    | some out =>
      simp only [detectH264Encoder]
      cases hf : swEncoders.find? (fun encoder => containsSubstr out encoder)
        with
      | none => decide
      | some enc => exact List.mem_of_find?_eq_some hf
  · intro hc
    simp [detectH264Encoder, swEncoders, List.find?, hc]
  · intro hc
    cases hm : containsSubstr outputStr "mpeg4" <;>
      simp [detectH264Encoder, swEncoders, List.find?, hc, hm]
  · simp only [TranscodeToHLS, hmk, hdl, hout, Bool.not_true,
      Bool.false_eq_true, if_false]
    repeat' split
    all_goals rfl

/-- Witness for the amended C4: on a probe output listing
`libopenh264`, detection returns `libopenh264`, and the all-success run
probes once per profile. -/
theorem encoder_selection_software_only_witness :
    detectH264Encoder (some " V..... libopenh264  V..... mpeg4 ") ∈ swEncoders
    ∧ detectH264Encoder none = "mpeg4"
    ∧ (containsSubstr " V..... libopenh264 " "libopenh264" = true →
        detectH264Encoder (some " V..... libopenh264 ") = "libopenh264")
    ∧ (containsSubstr " V..... libopenh264 " "libopenh264" = false →
        detectH264Encoder (some " V..... libopenh264 ") = "mpeg4")
    ∧ (TranscodeToHLS envAllOk 7 []).probeCount = qualityProfiles.length :=
  encoder_selection_software_only
    (some " V..... libopenh264  V..... mpeg4 ") " V..... libopenh264 "
    envAllOk 7 [] rfl rfl rfl

/-- C6: every record reachable through the pipeline's own transitions
(created PENDING at upload, moved to PROCESSING on dequeue, then to
READY with the orchestrator's playlist URL or to FAILED with its error
message) has a non-empty `hlsPlaylistURL` iff its status is READY and a
non-empty `errorMessage` iff its status is FAILED. -/
theorem record_state_invariant (r : MovieRecord) (h : ReachableRecord r) :
    (r.hlsPlaylistURL ≠ "" ↔ r.uploadStatus = "READY")
    ∧ (r.errorMessage ≠ "" ↔ r.uploadStatus = "FAILED") := by
  induction h with
  | init => constructor <;> simp
  | toProcessing r hr hst ih =>
    have hurl : r.hlsPlaylistURL = "" := by
      by_contra hne
      have hready := ih.1.mp hne
      rw [hst] at hready
      exact absurd hready (by decide)
    have herr : r.errorMessage = "" := by
      by_contra hne
      have hfail := ih.2.mp hne
      rw [hst] at hfail
      exact absurd hfail (by decide)
    constructor <;> simp [hurl, herr]
  | toReady r url env movieID fs hr hst hok ih =>
    have hurl : url ≠ "" := by
      have hshape := transcode_ret_ok_shape env movieID fs url hok
      subst hshape
      exact ne_empty_of_head _ 'm' rfl
    constructor <;> simp [hurl]
  | toFailed r e env movieID fs hr hst herr ih =>
    have he : e ≠ "" := transcode_error_nonempty env movieID fs e herr
    have hurl : r.hlsPlaylistURL = "" := by
      by_contra hne
      have hready := ih.1.mp hne
      rw [hst] at hready
      exact absurd hready (by decide)
    constructor <;> simp [hurl, he]

/-- Witness for C6: the freshly created PENDING record satisfies both
equivalences. -/
theorem record_state_invariant_witness :
    ((MovieRecord.mk "PENDING" "" "").hlsPlaylistURL ≠ "" ↔
      (MovieRecord.mk "PENDING" "" "").uploadStatus = "READY")
    ∧ ((MovieRecord.mk "PENDING" "" "").errorMessage ≠ "" ↔
      (MovieRecord.mk "PENDING" "" "").uploadStatus = "FAILED") :=
  record_state_invariant
    { uploadStatus := "PENDING", hlsPlaylistURL := "", errorMessage := "" }
    ReachableRecord.init

/-- C7: on every exit path of `TranscodeToHLS` (mkdir failure, download
failure, output-dir failure, all-renditions failure, master-write
failure, upload failure, success) no path at or under the job's working
directory remains in the filesystem — granted that when the initial
`MkdirAll` fails the directory was not already present. -/
theorem workdir_absent_after (env : TranscodeEnv) (movieID : Int)
    (fs : List String)
    (hpre : env.mkdirWorkOk = false →
      ∀ q ∈ fs, isPathUnder (workDirOf movieID) q = false) :
    ∀ q ∈ (TranscodeToHLS env movieID fs).fsAfter,
      isPathUnder (workDirOf movieID) q = false := by
  rcases fsAfter_shape env movieID fs with ⟨hmk, hfs⟩ | ⟨l, hfs⟩
  · rw [hfs]
    exact hpre hmk
  · rw [hfs]
    intro q hq
    exact mem_removeAllFS _ _ _ hq

/-- Witness for C7: after a fully successful run started on a
filesystem containing `/etc/hosts`, that survivor is outside the
working directory (and, by evaluation, is in the final filesystem). -/
theorem workdir_absent_after_witness :
    isPathUnder (workDirOf 7) "/etc/hosts" = false :=
  workdir_absent_after envAllOk 7 ["/etc/hosts"]
    (fun hmk => absurd hmk (by decide)) "/etc/hosts" (by decide)

/-- C10: the master-playlist path returned by `TranscodeToHLS` is
`movie-{id}/master.m3u8`, which is neither the
`processed-videos/{id}/master.m3u8` object `GetHLSURL` checks nor under
the `processed-videos/{id}/` prefix `DeleteProcessedVideo` deletes; and
no object `TranscodeToHLS` uploads falls under that prefix either. -/
theorem processed_paths_never_referenced (movieID : Int)
    (env : TranscodeEnv) (fs : List String) :
    (∀ r, (TranscodeToHLS env movieID fs).ret = .ok r →
        r ≠ getHLSObjectName movieID ∧
        ∀ rest, r ≠ deleteProcessedScope movieID ++ rest)
    ∧ ∀ u ∈ (TranscodeToHLS env movieID fs).uploadedObjects,
        ∀ rest, u ≠ deleteProcessedScope movieID ++ rest := by
  constructor
  · intro r hr
    obtain rfl := transcode_ret_ok_shape env movieID fs r hr
    exact ⟨ne_of_head_m_p _ _ rfl rfl, fun rest => ne_of_head_m_p _ _ rfl rfl⟩
  · intro u hu rest
    obtain ⟨f, rfl⟩ := transcode_uploads_shape env movieID fs u hu
    exact ne_of_head_m_p _ _ rfl rfl

/-- Witness for C10: the concrete returned path `movie-7/master.m3u8` of
a successful run differs from `processed-videos/7/master.m3u8` and is
not under `processed-videos/7/`. -/
theorem processed_paths_never_referenced_witness :
    hlsBasePath 7 ++ "/master.m3u8" ≠ getHLSObjectName 7
    ∧ ∀ rest, hlsBasePath 7 ++ "/master.m3u8" ≠
        deleteProcessedScope 7 ++ rest :=
  (processed_paths_never_referenced 7 envAllOk []).1
    (hlsBasePath 7 ++ "/master.m3u8") rfl

end Cinestream
